import Mathlib

/-!
# Verification of the rimplog log-line formatter

A shallow embedding of `src/lib.rs` of the `rimplog` repository: the
configuration builder, the path-relativization helper
`get_project_relative_path`, the line-formatting closure installed by
`init_logger`, the level-parse fallback, and the severity-filter wiring.

External collaborators (the `colored` styling primitives, the wall clock,
the current thread, and the severity-filtering engine of the logging
facility) are parameterized or modelled from the specification's stated
black-box contracts, as noted on each definition.
-/

namespace Rimplog

/-! ## Basic list and string utilities

The embedding works on `List Char` with structural recursion so that every
definition evaluates by kernel reduction. -/

/-- Split a character list on the slash character, returning the segments
between slashes (empty segments included), accumulator-style. -/
def splitSlash : List Char → List Char → List (List Char)
  | [], acc => [acc.reverse]
  | c :: cs, acc =>
    if c = '/' then acc.reverse :: splitSlash cs []
    else splitSlash cs (c :: acc)

/-- `str::starts_with`: one string is an initial segment of another. -/
def strStartsWith (s pat : String) : Bool :=
  pat.data.isPrefixOf s.data

/-- A string ends with the given suffix. -/
def strEndsWith (s suffix : String) : Bool :=
  suffix.data.isSuffixOf s.data

/-- A character list occurs contiguously inside another. -/
def subListOf : List Char → List Char → Bool
  | needle, [] => needle.isEmpty
  | needle, h :: t => needle.isPrefixOf (h :: t) || subListOf needle t

/-- `str::to_lowercase` as used on level strings (ASCII range; every level
name handled by the logging facility is ASCII). -/
def toLowerStr (s : String) : String :=
  String.mk (s.data.map Char.toLower)

/-- `Iterator::position`: index of the first element satisfying the
predicate. -/
def position (p : String → Bool) : List String → Option Nat
  | [] => none
  | x :: xs => if p x then some 0 else (position p xs).map (· + 1)

/-! ## Path components

`get_project_relative_path` starts from
`Path::new(file_path).components().filter_map(|c| c.as_os_str().to_str())`.
We model Rust's Unix path-component iteration: segments between slashes
with empty and non-leading `.` segments dropped, a root component `/` when
the path is absolute, and a leading `.` component kept when the path has
no root and starts with a `.` segment. -/

/-- The components of a path string as Rust's `std::path::Path::components`
yields them on Unix, each rendered back through `as_os_str`. -/
def pathComponents (s : String) : List String :=
  let segs := splitSlash s.data []
  let hasRoot : Bool := match s.data with
    | '/' :: _ => true
    | _ => false
  let hasCurDir : Bool :=
    !hasRoot && (match segs with
      | f :: _ => f == ['.']
      | [] => false)
  let body := (segs.filter (fun t => !(t.isEmpty || t == ['.']))).map
    (fun t => String.mk t)
  (if hasRoot then ["/"] else []) ++ (if hasCurDir then ["."] else []) ++ body

/-! ## get_project_relative_path (src/lib.rs lines 147-174) -/

/-- The `relevant_components` binding: drop every component before the
first component equal to `"src"` (the `src_index` found by `position`),
or keep all components when none is `"src"`. -/
def relevantComponents (components : List String) : List String :=
  match position (fun c => c == "src") components with
  | some index => components.drop index
  | none => components

/-- `get_project_relative_path` from `src/lib.rs`: trim to the `src`
directory, then keep the full path when `depth == 0 || depth >= total`,
otherwise the last `depth` components, joined with `/`. -/
def get_project_relative_path (file_path : String) (depth : Nat) : String :=
  let components := pathComponents file_path
  let relevant_components := relevantComponents components
  let total := relevant_components.length
  if depth = 0 ∨ total ≤ depth then
    String.intercalate "/" relevant_components
  else
    String.intercalate "/" (relevant_components.drop (total - depth))

/-! ## Spec-side restatement of the relativization rule

These two definitions follow the specification's words ("discard every
component before it", "keep only the last `depth` components", depth as a
soft cap) so that the code's definition can be compared against them. -/

/-- Spec wording: if a component literally equal to `"src"` exists,
discard every component before it. -/
def specTrimToSrc (cs : List String) : List String :=
  if "src" ∈ cs then cs.dropWhile (fun c => c != "src") else cs

/-- Spec wording: keep all components at depth `0`, otherwise the last
`min depth total` components (depth is a soft cap, never truncating below
the available components). -/
def specKeepDepth (d : Nat) (cs : List String) : List String :=
  if d = 0 then cs else cs.drop (cs.length - min d cs.length)

/-! ## Data model (src/lib.rs lines 17-41 and the log crate's severity types) -/

/-- `log::Level`. -/
inductive Level
  | Error
  | Warn
  | Info
  | Debug
  | Trace
  deriving DecidableEq

/-- `log::LevelFilter`. -/
inductive LevelFilter
  | Off
  | Error
  | Warn
  | Info
  | Debug
  | Trace
  deriving DecidableEq

/-- Severity as a number with `Error` the most severe; in the log facility
a record passes a filter when its level number is at most the filter's. -/
def Level.toNum : Level → Nat
  | .Error => 1
  | .Warn => 2
  | .Info => 3
  | .Debug => 4
  | .Trace => 5

/-- `log::LevelFilter` as a number on the same scale, `Off` below all. -/
def LevelFilter.toNum : LevelFilter → Nat
  | .Off => 0
  | .Error => 1
  | .Warn => 2
  | .Info => 3
  | .Debug => 4
  | .Trace => 5

/-- Logger presets `FULL`, `THREAD`, `SIMPLE` (lines 38-42). -/
inductive LoggerPreset
  | FULL
  | THREAD
  | SIMPLE
  deriving DecidableEq

/-- The logger builder (lines 17-23). -/
structure LoggerBuilder where
  level : String
  only_project_logs : Bool
  path_depth : Nat
  time_format : String
  preset : LoggerPreset

/-- `impl Default for LoggerBuilder` (lines 25-35). -/
def LoggerBuilder.default : LoggerBuilder :=
  { level := "info"
    only_project_logs := false
    path_depth := 0
    time_format := "%Y-%m-%d %H:%M:%S"
    preset := LoggerPreset.FULL }

/-! ## The line formatter (the closure installed at lines 60-124)

The coloring library, the wall clock and the current thread are external
collaborators; they enter as parameters (`Style`, `formatTime`,
`thread_name`), as the spec prescribes for styling ("a capability
interface style(text, class) → text with a no-color implementation"). -/

/-- A log record as the format closure reads it: level, target, optional
source file, optional line number, and the pre-formatted message. -/
structure Record where
  level : Level
  target : String
  file : Option String
  line : Option Nat
  args : String

/-- The coloring collaborator: one styling primitive per `colored` method
the closure calls. -/
structure Style where
  red : String → String
  yellow : String → String
  green : String → String
  blue : String → String
  magenta : String → String
  cyan : String → String
  bold : String → String
  brightGreen : String → String
  brightBlue : String → String

/-- The no-color styling implementation. -/
def idStyle : Style := ⟨id, id, id, id, id, id, id, id, id⟩

/-- The severity label (lines 65-71): fixed five-character labels, each
with its own color, bold. -/
def levelLabel (style : Style) : Level → String
  | .Error => style.bold (style.red "ERROR")
  | .Warn => style.bold (style.yellow "WARN ")
  | .Info => style.bold (style.green "INFO ")
  | .Debug => style.bold (style.blue "DEBUG")
  | .Trace => style.bold (style.magenta "TRACE")

/-- The thread label (lines 73-78): the current thread's name, `unknown`
when absent, `main` bright green and every other name bright blue. -/
def threadLabel (style : Style) (thread_name : Option String) : String :=
  let name := thread_name.getD "unknown"
  if name = "main" then style.brightGreen name else style.brightBlue name

/-- The target qualifier (lines 80-87): the relativized path alone for
targets starting with the host project's package name, otherwise the raw
target in brackets followed by the relativized path. -/
def targetQualifier (style : Style) (project_name target relative_path : String) : String :=
  if strStartsWith target project_name then
    style.yellow relative_path
  else
    "[" ++ style.yellow target ++ "] " ++ style.yellow relative_path

/-- The format closure (lines 60-124): the text handed to the sink for one
record. `formatTime` is the wall-clock collaborator (the pattern rendered
at the current instant, `Local::now().format(..)`); the final `write!`
appends no line terminator. -/
def format_record (style : Style) (project_name : String) (path_depth : Nat)
    (time_format : String) (preset : LoggerPreset)
    (formatTime : String → String) (thread_name : Option String)
    (record : Record) : String :=
  let file_path := record.file.getD "unknown"
  let project_relative_path := get_project_relative_path file_path path_depth
  let line := record.line.getD 0
  let level := levelLabel style record.level
  let thread_colored := threadLabel style thread_name
  let project := targetQualifier style project_name record.target project_relative_path
  let timestamp := style.cyan (formatTime time_format)
  match preset with
  | .FULL =>
      timestamp ++ " " ++ level ++ " [" ++ thread_colored ++ "] [" ++ project ++ ":"
        ++ style.yellow (toString line) ++ "] " ++ record.args
  | .THREAD =>
      timestamp ++ " " ++ level ++ " [" ++ thread_colored ++ "] " ++ record.args
  | .SIMPLE =>
      "[ " ++ timestamp ++ " " ++ level ++ "] " ++ record.args

/-- The assembly templates exactly as the spec lists them:
`Full`: `<timestamp> <level> [<thread>] [<target-qualifier>:<line>] <message>`;
`ThreadOnly`: `<timestamp> <level> [<thread>] <message>`;
`Minimal`: `[ <timestamp> <level>] <message>`. -/
def specRenderedLine (preset : LoggerPreset)
    (timestamp level thread qualifier line message : String) : String :=
  match preset with
  | .FULL =>
      timestamp ++ " " ++ level ++ " [" ++ thread ++ "] [" ++ qualifier ++ ":"
        ++ line ++ "] " ++ message
  | .THREAD =>
      timestamp ++ " " ++ level ++ " [" ++ thread ++ "] " ++ message
  | .SIMPLE =>
      "[ " ++ timestamp ++ " " ++ level ++ "] " ++ message

/-! ## Level parsing with fallback (lines 48 and 127-133) -/

/-- Modelled from the spec: "Attempt to parse the level string into the
facility's severity enum" — the facility is the `log` crate, whose
`LevelFilter::from_str` matches the six names `off`, `error`, `warn`,
`info`, `debug`, `trace` ASCII-case-insensitively. -/
def parseLevelFilter (s : String) : Option LevelFilter :=
  let t := toLowerStr s
  if t = "off" then some LevelFilter.Off
  else if t = "error" then some LevelFilter.Error
  else if t = "warn" then some LevelFilter.Warn
  else if t = "info" then some LevelFilter.Info
  else if t = "debug" then some LevelFilter.Debug
  else if t = "trace" then some LevelFilter.Trace
  else none

/-- The level handling of `init_logger`: lower-case the configured level
string (line 48), parse it, and on failure print one warning to the error
stream and fall back to `Info` (lines 127-133). The second component
collects the lines printed to the error stream. -/
def init_parse_level (cfg_level : String) : LevelFilter × List String :=
  let level := toLowerStr cfg_level
  match parseLevelFilter level with
  | some l => (l, [])
  | none =>
      (LevelFilter.Info,
        ["Invalid log level '" ++ level ++ "', using default level Info"])

/-! ## Severity-filter wiring (lines 135-141) -/

/-- The filter directives installed by `init_logger` (lines 135-141), in
call order: with `only_project_logs` a global `Off` directive then a
directive keyed by the project's package name at the parsed level;
otherwise one global directive at the parsed level. -/
def applyFilters (only_project_logs : Bool) (project_name : String)
    (parsed_level : LevelFilter) : List (Option String × LevelFilter) :=
  if only_project_logs then
    [(none, LevelFilter.Off), (some project_name, parsed_level)]
  else
    [(none, parsed_level)]

/-- Modelled from the spec: the filtering engine is a black box answering
"is this record at or above the configured level for this target" via
"global/keyed threshold-setting primitives" — a keyed directive applies to
the targets that start with its key, and the unkeyed directive is the
global default. -/
def thresholdFor (ds : List (Option String × LevelFilter)) (target : String) : LevelFilter :=
  match ds.findSome? (fun d => match d.1 with
      | some key => if strStartsWith target key then some d.2 else none
      | none => none) with
  | some l => l
  | none =>
    match ds.findSome? (fun d => match d.1 with
        | none => some d.2
        | some _ => none) with
    | some l => l
    | none => LevelFilter.Error

/-- Modelled from the spec: a record passes when its severity is at or
above the threshold configured for its target. -/
def levelPasses (l : Level) (f : LevelFilter) : Bool :=
  decide (l.toNum ≤ f.toNum)

/-! ## Lemmas about the relativization -/

theorem position_src_none (cs : List String)
    (h : position (fun c => c == "src") cs = none) : "src" ∉ cs := by
  induction cs with
  | nil => simp
  | cons x xs ih =>
    by_cases hx : x = "src"
    · subst hx; simp [position] at h
    · simp only [position, beq_iff_eq, if_neg hx] at h
      cases hp : position (fun c => c == "src") xs with
      | some j => rw [hp] at h; simp at h
      | none =>
        intro hmem
        rcases List.mem_cons.mp hmem with he | hm
        · exact hx he.symm
        · exact ih hp hm

theorem position_src_some (cs : List String) (i : Nat)
    (h : position (fun c => c == "src") cs = some i) :
    cs.drop i = cs.dropWhile (fun c => c != "src") ∧ "src" ∈ cs := by
  induction cs generalizing i with
  | nil => simp [position] at h
  | cons x xs ih =>
    by_cases hx : x = "src"
    · subst hx
      simp [position] at h
      subst h
      simp [List.dropWhile]
    · simp only [position, beq_iff_eq, if_neg hx] at h
      cases hp : position (fun c => c == "src") xs with
      | none => rw [hp] at h; simp at h
      | some j =>
        rw [hp] at h
        simp at h
        subst h
        obtain ⟨h1, h2⟩ := ih j hp
        refine ⟨?_, List.mem_cons_of_mem _ h2⟩
        have hpx : (x != "src") = true := by simp [hx]
        simp [List.dropWhile, hpx, List.drop, h1]

theorem relevantComponents_eq_spec (cs : List String) :
    relevantComponents cs = specTrimToSrc cs := by
  unfold relevantComponents specTrimToSrc
  cases h : position (fun c => c == "src") cs with
  | none => rw [if_neg (position_src_none cs h)]
  | some i =>
    obtain ⟨h1, h2⟩ := position_src_some cs i h
    rw [if_pos h2]
    exact h1

theorem keep_eq (d : Nat) (rel : List String) :
    (if d = 0 ∨ rel.length ≤ d then String.intercalate "/" rel
     else String.intercalate "/" (rel.drop (rel.length - d)))
    = String.intercalate "/" (specKeepDepth d rel) := by
  unfold specKeepDepth
  by_cases h0 : d = 0
  · simp [h0]
  · by_cases h1 : rel.length ≤ d
    · rw [if_pos (Or.inr h1), if_neg h0]
      have hz : rel.length - min d rel.length = 0 := by omega
      rw [hz, List.drop_zero]
    · rw [if_neg (by tauto), if_neg h0]
      have hd : rel.length - d = rel.length - min d rel.length := by omega
      rw [hd]

theorem grp_eq_spec (p : String) (d : Nat) :
    get_project_relative_path p d =
      String.intercalate "/" (specKeepDepth d (specTrimToSrc (pathComponents p))) := by
  calc get_project_relative_path p d
      = String.intercalate "/" (specKeepDepth d (relevantComponents (pathComponents p))) :=
        keep_eq d (relevantComponents (pathComponents p))
    _ = String.intercalate "/" (specKeepDepth d (specTrimToSrc (pathComponents p))) := by
        rw [relevantComponents_eq_spec]

theorem dropWhileToSrc (pre suf : List String) (h : "src" ∉ pre) :
    (pre ++ "src" :: suf).dropWhile (fun c => c != "src") = "src" :: suf := by
  induction pre with
  | nil =>
    rw [List.nil_append]
    simp [List.dropWhile]
  | cons x xs ih =>
    have hx : x ≠ "src" := fun e => h (by simp [e])
    have hxs : "src" ∉ xs := fun hm => h (List.mem_cons_of_mem x hm)
    have hpx : (x != "src") = true := by simp [hx]
    rw [List.cons_append]
    simp only [List.dropWhile, hpx]
    exact ih hxs

/-! ## String helper lemmas -/

theorem strDataAppend (a b : String) : (a ++ b).data = a.data ++ b.data := by
  cases a; cases b; rfl

theorem isPrefixOfAppend (l r : List Char) : l.isPrefixOf (l ++ r) = true := by
  induction l with
  | nil => cases r <;> rfl
  | cons a as ih => simp [List.isPrefixOf, ih]

theorem subListOfCons (n : List Char) (h : Char) (t : List Char) :
    subListOf n (h :: t) = (n.isPrefixOf (h :: t) || subListOf n t) := rfl

theorem subListOfHere (n q : List Char) : subListOf n (n ++ q) = true := by
  cases n with
  | nil =>
    cases q with
    | nil => rfl
    | cons c cs => rw [List.nil_append, subListOfCons]; simp [List.isPrefixOf]
  | cons a as =>
    rw [List.cons_append, subListOfCons, ← List.cons_append, isPrefixOfAppend,
      Bool.true_or]

theorem subListOfAppend (p n q : List Char) : subListOf n (p ++ (n ++ q)) = true := by
  induction p with
  | nil => rw [List.nil_append]; exact subListOfHere n q
  | cons x xs ih => rw [List.cons_append, subListOfCons, ih, Bool.or_true]

theorem strEndsWithAppend (a b : String) : strEndsWith (a ++ b) b = true := by
  unfold strEndsWith
  rw [strDataAppend]
  unfold List.isSuffixOf
  rw [List.reverse_append]
  exact isPrefixOfAppend _ _

/-! ## The claims -/

/-- Claim C1 (amended): for every source file path string and every depth
`d`, relativization yields the path's components with everything before
the first `src` component discarded when one exists, all of them kept when
`d = 0` or `d` is at least their number and only the last `d` of them kept
otherwise, rejoined with `/`. For a path with no `src` component and depth
`0` this is the path's components rejoined with `/`, which equals the
original path exactly when the path is already a normalized relative
path. -/
theorem C1_path_relativization (p : String) (d : Nat) :
    get_project_relative_path p d =
      String.intercalate "/" (specKeepDepth d (specTrimToSrc (pathComponents p))) :=
  grp_eq_spec p d

/-- Claim C1, counterexample to the claim as stated: the absolute path
`/home/user/lib.rs` has no `src` component, yet relativization at depth 0
does not return it unchanged — the root component rejoins as a double
slash. -/
theorem C1_counterexample :
    "src" ∉ pathComponents "/home/user/lib.rs"
  ∧ get_project_relative_path "/home/user/lib.rs" 0 = "//home/user/lib.rs"
  ∧ "//home/user/lib.rs" ≠ "/home/user/lib.rs" := by
  refine ⟨by decide, by decide, by decide⟩

/-- Claim C2: with `only_project_logs` set, initialization installs a
global `Off` directive and a directive keyed by the project's package name
at the parsed level, so a record from a non-project target is suppressed
at every level while project-target records pass exactly when at or above
the parsed level; without the flag it installs only the global directive
at the parsed level. -/
theorem C2_filter_wiring (pn target : String) (parsed : LevelFilter) (l : Level) :
    applyFilters true pn parsed = [(none, LevelFilter.Off), (some pn, parsed)]
  ∧ applyFilters false pn parsed = [(none, parsed)]
  ∧ (strStartsWith target pn = false →
      levelPasses l (thresholdFor (applyFilters true pn parsed) target) = false)
  ∧ (strStartsWith target pn = true →
      levelPasses l (thresholdFor (applyFilters true pn parsed) target) =
        levelPasses l parsed)
  ∧ thresholdFor (applyFilters false pn parsed) target = parsed := by
  refine ⟨rfl, rfl, ?_, ?_, rfl⟩
  · intro h
    have ht : thresholdFor (applyFilters true pn parsed) target = LevelFilter.Off := by
      simp [thresholdFor, applyFilters, List.findSome?, h]
    rw [ht]
    cases l <;> rfl
  · intro h
    have ht : thresholdFor (applyFilters true pn parsed) target = parsed := by
      simp [thresholdFor, applyFilters, List.findSome?, h]
    rw [ht]

/-- Claim C2, witness: with the restriction on and level `warn`, a `Warn`
record from a foreign target is suppressed while a `Warn` record from the
project target passes. -/
theorem C2_filter_wiring_witness :
    levelPasses Level.Warn
      (thresholdFor (applyFilters true "rimplog" LevelFilter.Warn) "other_crate") = false
  ∧ levelPasses Level.Warn
      (thresholdFor (applyFilters true "rimplog" LevelFilter.Warn) "rimplog::app") = true := by
  constructor
  · exact (C2_filter_wiring "rimplog" "other_crate" LevelFilter.Warn Level.Warn).2.2.1
      (by decide)
  · have h := (C2_filter_wiring "rimplog" "rimplog::app" LevelFilter.Warn Level.Warn).2.2.2.1
      (by decide)
    rw [h]
    decide

/-- Claim C4 (amended): initialization never fails on an unparseable level
string: it falls back to `Info` and prints exactly one warning to the
error stream, and that warning contains the lower-cased configured level
string (the code lower-cases the configured string before parsing and
printing); a level string that parses produces no warning and its parsed
level is used. -/
theorem C4_level_fallback (cfg : String) :
    (∀ l, parseLevelFilter (toLowerStr cfg) = some l →
        init_parse_level cfg = (l, []))
  ∧ (parseLevelFilter (toLowerStr cfg) = none →
        init_parse_level cfg =
          (LevelFilter.Info,
            ["Invalid log level '" ++ toLowerStr cfg ++ "', using default level Info"])
      ∧ subListOf (toLowerStr cfg).data
          ("Invalid log level '" ++ toLowerStr cfg
            ++ "', using default level Info").data = true) := by
  constructor
  · intro l h
    simp only [init_parse_level]
    rw [h]
  · intro h
    refine ⟨?_, ?_⟩
    · simp only [init_parse_level]
      rw [h]
    · rw [strDataAppend, strDataAppend, List.append_assoc]
      exact subListOfAppend _ _ _

/-- Claim C4, counterexample to the claim as stated: the configured level
string `Foo` does not parse; the single warning prints the lower-cased
`foo` and does not contain the configured string `Foo`. -/
theorem C4_counterexample :
    (init_parse_level "Foo").1 = LevelFilter.Info
  ∧ (init_parse_level "Foo").2 = ["Invalid log level 'foo', using default level Info"]
  ∧ subListOf "Foo".data
      ("Invalid log level 'foo', using default level Info").data = false := by
  refine ⟨by decide, by decide, by decide⟩

/-- Claim C4, witness: `WARN` parses and emits no warning; `verbose` falls
back to `Info` with one warning naming it. -/
theorem C4_level_fallback_witness :
    init_parse_level "WARN" = (LevelFilter.Warn, [])
  ∧ init_parse_level "verbose" =
      (LevelFilter.Info, ["Invalid log level 'verbose', using default level Info"]) := by
  constructor
  · exact (C4_level_fallback "WARN").1 LevelFilter.Warn (by decide)
  · exact ((C4_level_fallback "verbose").2 (by decide)).1

/-- Claim C5: for every record and configuration the rendered line is
exactly the selected preset's template (Full, ThreadOnly or Minimal as the
spec lists them), the severity label is a fixed five-character padded
label, and no line terminator is appended — the rendered line ends with
the record's message. -/
theorem C5_preset_templates (style : Style) (pn : String) (d : Nat)
    (tf : String) (preset : LoggerPreset) (ft : String → String)
    (th : Option String) (r : Record) :
    format_record style pn d tf preset ft th r =
      specRenderedLine preset (style.cyan (ft tf)) (levelLabel style r.level)
        (threadLabel style th)
        (targetQualifier style pn r.target
          (get_project_relative_path (r.file.getD "unknown") d))
        (style.yellow (toString (r.line.getD 0))) r.args
  ∧ (∀ l : Level, (levelLabel idStyle l).length = 5)
  ∧ strEndsWith (format_record style pn d tf preset ft th r) r.args = true := by
  refine ⟨?_, ?_, ?_⟩
  · cases preset <;> rfl
  · intro l; cases l <;> rfl
  · cases preset <;> exact strEndsWithAppend _ _

/-- Claim C6: a record whose target starts with the host project's package
name gets the relativized path alone as target qualifier; any other record
gets its raw target in square brackets, a space, then the relativized
path — target `other_crate::x` with path `mod/file.rs` renders as
`[other_crate::x] mod/file.rs`. -/
theorem C6_target_qualifier :
    (∀ (style : Style) (pn target path : String), strStartsWith target pn = true →
        targetQualifier style pn target path = style.yellow path)
  ∧ (∀ (style : Style) (pn target path : String), strStartsWith target pn = false →
        targetQualifier style pn target path =
          "[" ++ style.yellow target ++ "] " ++ style.yellow path)
  ∧ targetQualifier idStyle "proj" "other_crate::x" "mod/file.rs" =
      "[other_crate::x] mod/file.rs" := by
  refine ⟨?_, ?_, by decide⟩
  · intro style pn target path h
    simp [targetQualifier, h]
  · intro style pn target path h
    simp [targetQualifier, h]

/-- Claim C6, witness: a project-target record shows the relativized path
alone. -/
theorem C6_target_qualifier_witness :
    targetQualifier idStyle "proj" "proj::app" "mod/file.rs" = "mod/file.rs" :=
  C6_target_qualifier.1 idStyle "proj" "proj::app" "mod/file.rs" (by decide)

/-- Claim C7: formatting is total and missing metadata degrades to fixed
defaults: an absent source file renders the path as the literal `unknown`
at every depth, an absent line number renders as `0`, and a record with
absent file and line renders exactly like one carrying `unknown` and `0` —
nothing else changes. -/
theorem C7_missing_metadata (style : Style) (pn : String) (d : Nat) (tf : String)
    (preset : LoggerPreset) (ft : String → String) (th : Option String)
    (l : Level) (t m : String) :
    get_project_relative_path "unknown" d = "unknown"
  ∧ format_record style pn d tf preset ft th ⟨l, t, none, none, m⟩ =
      format_record style pn d tf preset ft th ⟨l, t, some "unknown", some 0, m⟩
  ∧ format_record idStyle pn d tf .FULL ft th ⟨l, t, none, none, m⟩ =
      ft tf ++ " " ++ levelLabel idStyle l ++ " [" ++ threadLabel idStyle th ++ "] ["
        ++ targetQualifier idStyle pn t "unknown" ++ ":" ++ "0" ++ "] " ++ m := by
  have hu : get_project_relative_path "unknown" d = "unknown" := by
    rw [grp_eq_spec]
    have hc : pathComponents "unknown" = ["unknown"] := by decide
    rw [hc]
    have ht : specTrimToSrc ["unknown"] = ["unknown"] := by decide
    rw [ht]
    unfold specKeepDepth
    by_cases h0 : d = 0
    · rw [if_pos h0]; rfl
    · rw [if_neg h0]
      have hz : List.length ["unknown"] - min d (List.length ["unknown"]) = 0 := by
        simp only [List.length_singleton]
        omega
      rw [hz, List.drop_zero]
      rfl
  refine ⟨hu, by cases preset <;> rfl, ?_⟩
  have h1 : format_record idStyle pn d tf .FULL ft th ⟨l, t, none, none, m⟩ =
      ft tf ++ " " ++ levelLabel idStyle l ++ " [" ++ threadLabel idStyle th ++ "] ["
        ++ targetQualifier idStyle pn t (get_project_relative_path "unknown" d)
        ++ ":" ++ "0" ++ "] " ++ m := by
    show format_record idStyle pn d tf .FULL ft th ⟨l, t, none, none, m⟩ =
        ft tf ++ " " ++ levelLabel idStyle l ++ " [" ++ threadLabel idStyle th ++ "] ["
          ++ targetQualifier idStyle pn t (get_project_relative_path "unknown" d)
          ++ ":" ++ idStyle.yellow (toString (0 : Nat)) ++ "] " ++ m
    rfl
  rw [h1, hu]

/-- Claim C8: the default builder configuration is level string `info`,
project restriction off, path depth `0`, time pattern `%Y-%m-%d %H:%M:%S`
and preset `FULL`. -/
theorem C8_default_config :
    LoggerBuilder.default.level = "info"
  ∧ LoggerBuilder.default.only_project_logs = false
  ∧ LoggerBuilder.default.path_depth = 0
  ∧ LoggerBuilder.default.time_format = "%Y-%m-%d %H:%M:%S"
  ∧ LoggerBuilder.default.preset = LoggerPreset.FULL :=
  ⟨rfl, rfl, rfl, rfl, rfl⟩

/-- Claim C9: when a path has several components equal to `src`, the code
trims at the leftmost one: whenever the components split as
`pre ++ "src" :: suf` with no `src` in `pre` and another `src` in `suf`,
depth-0 relativization keeps exactly `"src" :: suf`. -/
theorem C9_leftmost_src (p : String) (pre suf : List String)
    (h1 : pathComponents p = pre ++ "src" :: suf)
    (h2 : "src" ∉ pre) (h3 : "src" ∈ suf) :
    get_project_relative_path p 0 = String.intercalate "/" ("src" :: suf) := by
  rw [grp_eq_spec, h1]
  have hd : specKeepDepth 0 (specTrimToSrc (pre ++ "src" :: suf)) =
      specTrimToSrc (pre ++ "src" :: suf) := by
    unfold specKeepDepth
    rw [if_pos rfl]
  rw [hd]
  have hmem : "src" ∈ pre ++ "src" :: suf := by simp
  unfold specTrimToSrc
  rw [if_pos hmem]
  rw [dropWhileToSrc pre suf h2]

/-- Claim C9, witness: `a/src/b/src/c.rs` has two `src` components and is
trimmed at the leftmost. -/
theorem C9_leftmost_src_witness :
    get_project_relative_path "a/src/b/src/c.rs" 0 = "src/b/src/c.rs" :=
  (C9_leftmost_src "a/src/b/src/c.rs" ["a"] ["b", "src", "c.rs"]
    (by decide) (by decide) (by decide)).trans (by decide)

/-- Claim C10: under the `SIMPLE` (Minimal) preset the rendered line is
determined solely by the time pattern, the wall-clock instant, the
record's level and its message: two records agreeing on level and message
render identically whatever their targets, source files, line numbers,
thread names, project names or path depths. -/
theorem C10_simple_noninterference (style : Style) (pn1 pn2 : String)
    (d1 d2 : Nat) (tf : String) (ft : String → String)
    (th1 th2 : Option String) (r1 r2 : Record)
    (hl : r1.level = r2.level) (hm : r1.args = r2.args) :
    format_record style pn1 d1 tf .SIMPLE ft th1 r1 =
      format_record style pn2 d2 tf .SIMPLE ft th2 r2 := by
  simp only [format_record]
  rw [hl, hm]

/-- Claim C10, witness: two records differing in target, file, line and
thread render the same Minimal line. -/
theorem C10_simple_noninterference_witness :
    format_record idStyle "projA" 0 "%H:%M" .SIMPLE (fun _ => "12:00") (some "main")
        ⟨Level.Info, "projA::m", some "src/a.rs", some 7, "msg"⟩ =
      format_record idStyle "projB" 5 "%H:%M" .SIMPLE (fun _ => "12:00") none
        ⟨Level.Info, "other::n", none, none, "msg"⟩ :=
  C10_simple_noninterference idStyle "projA" "projB" 0 5 "%H:%M" (fun _ => "12:00")
    (some "main") none ⟨Level.Info, "projA::m", some "src/a.rs", some 7, "msg"⟩
    ⟨Level.Info, "other::n", none, none, "msg"⟩ rfl rfl

end Rimplog
